import Mathlib

/-! Verification of `src/tools/shadow_builder.py`.

A shallow embedding of the shadow-DOM builder.  Python dictionaries are
modelled by records of the keys the program reads or writes (plus an
`extra` bag for keys it merely carries along); `dict.get` with a default
becomes `Option.getD`; floating-point coordinates are modelled by `ℚ`
(the program only subtracts, compares and takes `max`); Python's mutable
`ShadowNode` objects become a pure value type.

The one place where the Python code relies on object aliasing is the build
stack: at a `start` probe the new node is simultaneously appended to
`current_parent.children` and pushed onto the stack, and later mutations
through the stack reference are visible through the parent.  While a node
is open it is always the *last* child of the frame below it, and the
parent cannot gain further children until the open node is popped; hence
the alias-free functional model attaches a node to its parent at the
moment it leaves the stack (on `end`, or when the remaining open frames
are flattened once the input is exhausted), which yields exactly the same
tree.
-/

/-- A JSON-ish value stored in a probe's metadata payload.  The builder only
ever compares such a value against the strings "start" and "end", so all
non-string values are collapsed into a single constructor. -/
inductive PVal : Type where
  | str : String → PVal
  | nonstr : PVal
deriving DecidableEq

/-- The probe metadata dict (`probe["payload"]`).  The program reads the keys
`"kind"`, `"edge"` and `"type"`, writes the key `"pages"` on the root, and
otherwise carries the dict verbatim (`extra` stands for all other keys). -/
structure Payload : Type where
  kind : Option String
  edge : Option PVal
  ptype : Option String
  pages : Option Int
  extra : List (String × PVal)
deriving DecidableEq

/-- The empty dict `{}` used as the default payload. -/
def emptyPayload : Payload := ⟨none, none, none, none, []⟩

/-- The location dict `{page, x, y}`; any key may be absent. -/
structure Location : Type where
  page : Option Int
  x : Option ℚ
  y : Option ℚ
deriving DecidableEq

/-- The empty dict `{}` used as the default location. -/
def emptyLocation : Location := ⟨none, none, none⟩

/-- Python `Rect`: a single rectangle on a specific page. -/
structure Rect : Type where
  page : Int
  x : ℚ
  y : ℚ
  w : ℚ
  h : ℚ
deriving DecidableEq

/-- Constant `A4_WIDTH_PT = 595.0`. -/
def A4_WIDTH_PT : ℚ := 595

/-- Constant `A4_HEIGHT_PT = 842.0`. -/
def A4_HEIGHT_PT : ℚ := 842

/-- Constant `DEFAULT_RECT_WIDTH = 400.0`. -/
def DEFAULT_RECT_WIDTH : ℚ := 400

/-- One probe record, as consumed by `build_shadow_dom`.  Every field the
code accesses with `probe.get(...)` is an `Option`; `edgeTop` stands for a
pairing marker stored at the *top level* of the record, which the builder
never reads (it reads the marker from `payload["edge"]` only). -/
structure Probe : Type where
  id : Option String
  payload : Option Payload
  location : Option Location
  seq : Option Int
  kind : Option String
  edgeTop : Option PVal
deriving DecidableEq

/-- Python `ShadowNode`: a node in the shadow DOM tree.  Fields follow the Python
dataclass: `kind`, `id`, `seq_start`, `children`, `rects`, `payload`,
`is_atomic`, and the internal `_start_page`, `_start_x`, `_start_y`. -/
inductive ShadowNode : Type where
  | mk : (kind : String) → (id : String) → (seqStart : Int) →
      (children : List ShadowNode) → (rects : List Rect) →
      (payload : Payload) → (isAtomic : Bool) →
      (startPage : Int) → (startX : ℚ) → (startY : ℚ) → ShadowNode

def ShadowNode.kind : ShadowNode → String
  | .mk k _ _ _ _ _ _ _ _ _ => k

def ShadowNode.id : ShadowNode → String
  | .mk _ i _ _ _ _ _ _ _ _ => i

def ShadowNode.seqStart : ShadowNode → Int
  | .mk _ _ s _ _ _ _ _ _ _ => s

def ShadowNode.children : ShadowNode → List ShadowNode
  | .mk _ _ _ c _ _ _ _ _ _ => c

def ShadowNode.rects : ShadowNode → List Rect
  | .mk _ _ _ _ r _ _ _ _ _ => r

def ShadowNode.payload : ShadowNode → Payload
  | .mk _ _ _ _ _ p _ _ _ _ => p

def ShadowNode.isAtomic : ShadowNode → Bool
  | .mk _ _ _ _ _ _ a _ _ _ => a

def ShadowNode.startPage : ShadowNode → Int
  | .mk _ _ _ _ _ _ _ sp _ _ => sp

def ShadowNode.startX : ShadowNode → ℚ
  | .mk _ _ _ _ _ _ _ _ sx _ => sx

def ShadowNode.startY : ShadowNode → ℚ
  | .mk _ _ _ _ _ _ _ _ _ sy => sy

/-- Python `ShadowNode.add_child`: append a child node. -/
def ShadowNode.addChild : ShadowNode → ShadowNode → ShadowNode
  | .mk k i s c r p a sp sx sy, n => .mk k i s (c ++ [n]) r p a sp sx sy

/-- Python `ShadowNode.set_start`: record start position (each coordinate read with
`location.get(key, default)`). -/
def ShadowNode.setStart : ShadowNode → Location → ShadowNode
  | .mk k i s c r p a _ _ _, loc =>
      .mk k i s c r p a (loc.page.getD 1) (loc.x.getD 0) (loc.y.getD 0)

/-- Python `ShadowNode.close`: close a node and append its geometry.  Same page:
one rect of height `max(end_y - start_y, 15)`.  Cross page: two rects, the
first of height `max(842 - start_y - 50, 50)` on the start page, the second
at `y = 50` of height `max(end_y - 50, 50)` on the end page. -/
def ShadowNode.close : ShadowNode → Location → ShadowNode
  | .mk k i s c r p a sp sx sy, loc =>
      let endPage := loc.page.getD 1
      let endX := loc.x.getD 0
      let endY := loc.y.getD 0
      if sp = endPage then
        .mk k i s c (r ++ [⟨sp, sx, sy, DEFAULT_RECT_WIDTH, max (endY - sy) 15⟩])
          p a sp sx sy
      else
        .mk k i s c
          (r ++ [⟨sp, sx, sy, DEFAULT_RECT_WIDTH, max (A4_HEIGHT_PT - sy - 50) 50⟩,
                 ⟨endPage, endX, 50, DEFAULT_RECT_WIDTH, max (endY - 50) 50⟩])
          p a sp sx sy

/-- Python `ShadowNode.add_atomic_rect`: the single 10×10 marker rect of an atomic
probe, placed at the probe's own location. -/
def ShadowNode.addAtomicRect : ShadowNode → Location → ShadowNode
  | .mk k i s c r p a sp sx sy, loc =>
      .mk k i s c (r ++ [⟨loc.page.getD 1, loc.x.getD 0, loc.y.getD 0, 10, 10⟩])
        p a sp sx sy

/-- Python's `probe_id.replace("-start", "")`: delete every (left-to-right,
non-overlapping) occurrence of the substring `-start`. -/
def stripStartMarks : List Char → List Char
  | '-' :: 's' :: 't' :: 'a' :: 'r' :: 't' :: rest => stripStartMarks rest
  | c :: rest => c :: stripStartMarks rest
  | [] => []

/-- Python `probe_id.replace("-start", "")` on `String`. -/
def stripId (s : String) : String := ⟨stripStartMarks s.data⟩

/-- Does the 6-character pattern `-start` occur anywhere in the list? -/
def containsStartMark : List Char → Bool
  | '-' :: 's' :: 't' :: 'a' :: 'r' :: 't' :: _ => true
  | _ :: rest => containsStartMark rest
  | [] => false

/-- The builder state: the stack of currently-open nodes (head = top of the
Python list) and the set `pages_seen`. -/
structure BState : Type where
  stack : List ShadowNode
  pagesSeen : Finset Int

/-- The root node `ShadowNode(kind="DOCUMENT", id="ROOT", seq_start=0)` with
the dataclass defaults for the remaining fields. -/
def rootNode : ShadowNode := .mk "DOCUMENT" "ROOT" 0 [] [] emptyPayload false 1 0 0

/-- Initial builder state: `stack = [root]`, `pages_seen = set()`. -/
def initState : BState := ⟨[rootNode], ∅⟩

/-- The loop local `probe_id = probe.get("id", "unknown")`. -/
def pidOf (p : Probe) : String := p.id.getD "unknown"

/-- The loop local `payload = probe.get("payload", {})`. -/
def payloadOf (p : Probe) : Payload := p.payload.getD emptyPayload

/-- The loop local `location = probe.get("location", {})`. -/
def locOf (p : Probe) : Location := p.location.getD emptyLocation

/-- The loop local `seq = probe.get("_seq", 0)`. -/
def seqOf (p : Probe) : Int := p.seq.getD 0

/-- The loop local `kind = payload.get("kind", probe.get("kind", "marker"))`. -/
def kindOf (p : Probe) : String := (payloadOf p).kind.getD (p.kind.getD "marker")

/-- The loop local `edge = payload.get("edge")`: the pairing marker, read
from the metadata payload only. -/
def probeEdge (p : Probe) : Option PVal := (payloadOf p).edge

/-- Python `if "page" in location: pages_seen.add(location["page"])`. -/
def pagesUpd (p : Probe) (seen : Finset Int) : Finset Int :=
  match (locOf p).page with
  | some pg => insert pg seen
  | none => seen

/-- The node created by the `start` branch: identity
`probe_id.replace("-start", "")`, then `set_start(location)`. -/
def startNode (p : Probe) : ShadowNode :=
  (ShadowNode.mk (kindOf p) (stripId (pidOf p)) (seqOf p) [] [] (payloadOf p)
    false 1 0 0).setStart (locOf p)

/-- The node created by the atomic branch: the probe's own identifier
unchanged, `is_atomic=True`, then `add_atomic_rect(location)`. -/
def atomicNode (p : Probe) : ShadowNode :=
  (ShadowNode.mk (kindOf p) (pidOf p) (seqOf p) [] [] (payloadOf p)
    true 1 0 0).addAtomicRect (locOf p)

/-- One iteration of the `for probe in probes` loop of `build_shadow_dom`.
The `start` branch only pushes (see the module comment: the Python code also
appends the node to the parent's children, an alias that the functional
model resolves by attaching the node when it is popped or flattened).
The `[]` stack case is unreachable: the stack starts at `[root]` and the
pop is guarded by `len(stack) > 1`. -/
def step (s : BState) (p : Probe) : BState :=
  let pages := pagesUpd p s.pagesSeen
  match s.stack with
  | [] => ⟨[], pages⟩
  | top :: rest =>
    if probeEdge p = some (.str "start") then
      ⟨startNode p :: top :: rest, pages⟩
    else if probeEdge p = some (.str "end") then
      match rest with
      | [] => ⟨top :: rest, pages⟩
      | parent :: rest2 => ⟨parent.addChild (top.close (locOf p)) :: rest2, pages⟩
    else
      ⟨top.addChild (atomicNode p) :: rest, pages⟩

/-- The state after the whole probe loop. -/
def runBuild (ps : List Probe) : BState := ps.foldl step initState

/-- Attach every still-open frame to the frame below it (the functional
counterpart of the aliases left by unmatched `start` probes; each open frame
is the last child of the frame below it). -/
def flattenStack (top : ShadowNode) : List ShadowNode → ShadowNode
  | [] => top
  | parent :: rest => flattenStack (parent.addChild top) rest

/-- Python `root.payload["pages"] = n`. -/
def ShadowNode.setPages : ShadowNode → Nat → ShadowNode
  | .mk k i s c r p a sp sx sy, n =>
      .mk k i s c r ⟨p.kind, p.edge, p.ptype, some (n : Int), p.extra⟩ a sp sx sy

/-- Python `build_shadow_dom`: run the loop, materialize the tree, and record
`len(pages_seen)` in the root payload. -/
def buildShadowDom (ps : List Probe) : ShadowNode :=
  let s := runBuild ps
  let root := match s.stack with
    | [] => rootNode
    | top :: rest => flattenStack top rest
  root.setPages s.pagesSeen.card

/-- Does this probe take the `start` branch? -/
def isStart (p : Probe) : Bool := decide (probeEdge p = some (.str "start"))

/-- Does this probe take the `end` branch? -/
def isEnd (p : Probe) : Bool := decide (probeEdge p = some (.str "end"))

/-- Number of probes taking the `start` branch. -/
def startCount (ps : List Probe) : Nat := ps.countP (fun p => isStart p)

/-- Number of probes taking the `end` branch. -/
def endCount (ps : List Probe) : Nat := ps.countP (fun p => isEnd p)

/-- Number of probes taking the atomic branch. -/
def atomicCount (ps : List Probe) : Nat := ps.countP (fun p => !isStart p && !isEnd p)

/-- How one probe changes the stack depth (`len(stack)`): `start` pushes,
`end` pops only when more than the root is on the stack. -/
def stepDepth (d : Nat) (p : Probe) : Nat :=
  if isStart p then d + 1 else if isEnd p then (if 1 < d then d - 1 else d) else d

/-- Stack depth after a probe list, starting from depth `d`. -/
def depthFold (d : Nat) : List Probe → Nat
  | [] => d
  | p :: ps => depthFold (stepDepth d p) ps

/-- Number of pop/close operations performed over a probe list, starting
from depth `d` (an `end` pops exactly when the depth exceeds 1). -/
def popFold (d : Nat) : List Probe → Nat
  | [] => 0
  | p :: ps => (if isEnd p ∧ 1 < d then 1 else 0) + popFold (stepDepth d p) ps

/-- Number of pop/close operations performed by `build_shadow_dom`. -/
def popCount (ps : List Probe) : Nat := popFold 1 ps

/-- Well-nestedness at open-depth `d`: every `end` closes a still-open
`start` (the most recently opened one, as the stack discipline dictates),
and every `start` is eventually closed. -/
def wellNestedAux (d : Nat) : List Probe → Bool
  | [] => d == 0
  | p :: ps =>
      if isStart p then wellNestedAux (d + 1) ps
      else if isEnd p then (if 0 < d then wellNestedAux (d - 1) ps else false)
      else wellNestedAux d ps

/-- A well-nested probe sequence. -/
def WellNested (ps : List Probe) : Prop := wellNestedAux 0 ps = true

mutual

/-- Python `collect_all_rects`: every `(kind, id, rect)` triple of the tree, the
node's own rects first, then the children's in stored order (the Python
version appends into an accumulator list; this is the pure equivalent). -/
def collectAllRects : ShadowNode → List (String × String × Rect)
  | .mk k i _ c r _ _ _ _ _ => r.map (fun rect => (k, i, rect)) ++ collectRectsList c

def collectRectsList : List ShadowNode → List (String × String × Rect)
  | [] => []
  | n :: ns => collectAllRects n ++ collectRectsList ns

end

mutual

/-- Number of nodes of a tree (root included). -/
def treeSize : ShadowNode → Nat
  | .mk _ _ _ c _ _ _ _ _ _ => 1 + treeSizeList c

def treeSizeList : List ShadowNode → Nat
  | [] => 0
  | n :: ns => treeSize n + treeSizeList ns

end

mutual

/-- Sum of `rects` lengths over all nodes of a tree. -/
def rectCountSum : ShadowNode → Nat
  | .mk _ _ _ c r _ _ _ _ _ => r.length + rectCountSumList c

def rectCountSumList : List ShadowNode → Nat
  | [] => 0
  | n :: ns => rectCountSum n + rectCountSumList ns

end

mutual

/-- Pre-order node list: parent before children, children in stored order.
This is the specification-side description of the traversal order. -/
def preorderNodes : ShadowNode → List ShadowNode
  | .mk k i s c r p a sp sx sy => .mk k i s c r p a sp sx sy :: preorderList c

def preorderList : List ShadowNode → List ShadowNode
  | [] => []
  | n :: ns => preorderNodes n ++ preorderList ns

end

/-- Specification-side description of `collect_all_rects`: flatten the
pre-order node list, taking each node's triples in stored order. -/
def preorderTriples (n : ShadowNode) : List (String × String × Rect) :=
  (preorderNodes n).flatMap (fun m => m.rects.map (fun r => (m.kind, m.id, r)))

/-- The pattern deleted by `probe_id.replace("-start", "")`. -/
def sfxPat : List Char := ['-', 's', 't', 'a', 'r', 't']

/-- Do the first six characters spell `-start`? -/
def headIsMark (l : List Char) : Bool := decide (l.take 6 = sfxPat)

/-- The kind and id of the bottom (root) frame of a stack. -/
def lastKindId (l : List ShadowNode) : Option (String × String) :=
  l.getLast?.map (fun n => (n.kind, n.id))

/-- Total number of nodes held by a stack. -/
def stackSizeSum (l : List ShadowNode) : Nat := treeSizeList l

/-- Specification-side description of the collector on a node list. -/
def preorderTriplesList (l : List ShadowNode) : List (String × String × Rect) :=
  (preorderList l).flatMap (fun m => m.rects.map (fun r => (m.kind, m.id, r)))

/-! ## The two renderers (pure string assembly; file/console I/O is outside the model) -/

/-- The fixed first element of `html_parts` (braces written `\x7b`/`\x7d`). -/
def htmlHead : String :=
  "<!DOCTYPE html>\n<html>\n<head>\n    <meta charset=\"UTF-8\">\n    <title>Shadow DOM Debug Overlay</title>\n    <style>\n        body \x7b\n            font-family: -apple-system, BlinkMacSystemFont, 'Segoe UI', Roboto, sans-serif;\n            background: #1a1a2e;\n            color: #eee;\n            padding: 20px;\n        \x7d\n        h1 \x7b color: #00d4ff; \x7d\n        .page-container \x7b\n            display: inline-block;\n            margin: 20px;\n            vertical-align: top;\n        \x7d\n        .page-label \x7b\n            text-align: center;\n            margin-bottom: 10px;\n            font-weight: bold;\n        \x7d\n        .page \x7b\n            width: 595px;\n            height: 842px;\n            background: white;\n            position: relative;\n            border: 2px solid #333;\n            box-shadow: 0 4px 20px rgba(0,0,0,0.5);\n        \x7d\n        .rect \x7b\n            position: absolute;\n            border: 2px solid rgba(255, 50, 50, 0.8);\n            background: rgba(255, 50, 50, 0.15);\n            cursor: pointer;\n            transition: all 0.2s;\n            box-sizing: border-box;\n        \x7d\n        .rect:hover \x7b\n            background: rgba(255, 50, 50, 0.4);\n            border-color: #ff0000;\n            z-index: 100;\n        \x7d\n        .rect .tooltip \x7b\n            display: none;\n            position: absolute;\n            top: -30px;\n            left: 0;\n            background: #222;\n            color: #fff;\n            padding: 4px 8px;\n            border-radius: 4px;\n            font-size: 12px;\n            white-space: nowrap;\n            z-index: 1000;\n        \x7d\n        .rect:hover .tooltip \x7b\n            display: block;\n        \x7d\n        .legend \x7b\n            margin-bottom: 20px;\n            padding: 15px;\n            background: #16213e;\n            border-radius: 8px;\n        \x7d\n    </style>\n</head>\n<body>\n    <h1>üîç Shadow DOM Debug Overlay</h1>\n    <div class=\"legend\">\n        <strong>Legend:</strong> Red boxes = Probe regions | Hover for details | \n        Total: "

def htmlAcross : String := " rects across "
def htmlLegendEnd : String := " pages\n    </div>\n"
def pageOpen1 : String := "\n    <div class=\"page-container\">\n        <div class=\"page-label\">Page "
def pageOpen2 : String := "</div>\n        <div class=\"page\">"
def rectDiv1 : String := "\n            <div class=\"rect\" style=\"left:"
def rectDiv2 : String := "px; top:"
def rectDiv3 : String := "px; width:"
def rectDiv4 : String := "px; height:"
def rectDiv5 : String := "px;\">\n                <span class=\"tooltip\">["
def rectDiv6 : String := "] "
def rectDiv7 : String := "</span>\n            </div>"
def pageClose : String := "\n        </div>\n    </div>"
def htmlFooter : String := "\n</body>\n</html>"
def connLast : String := "‚îî‚îÄ‚îÄ "
def connMid : String := "‚îú‚îÄ‚îÄ "
def indentLast : String := "    "
def indentMid : String := "‚îÇ   "

/-- Round a rational to an integer, ties to even — the rounding CPython's
fixed-point float formatting applies.  (Binary-float artifacts of extreme
inputs and the `-0.0` sign are not reproduced; no claim depends on the
rendered digits.) -/
def roundHalfEven (q : ℚ) : Int :=
  let f := ⌊q⌋
  if q - f < 1 / 2 then f
  else if 1 / 2 < q - f then f + 1
  else if f % 2 = 0 then f else f + 1

/-- Python's `f"{v:.0f}"`. -/
def fmt0 (q : ℚ) : String := toString (roundHalfEven q)

/-- Python's `f"{v:.1f}"`. -/
def fmt1 (q : ℚ) : String :=
  let m := roundHalfEven (q * 10)
  (if m < 0 then "-" else "") ++ toString (m.natAbs / 10) ++ "." ++ toString (m.natAbs % 10)

/-- Insert into a sorted list (ascending). -/
def insertSorted (x : Int) : List Int → List Int
  | [] => [x]
  | y :: ys => if x ≤ y then x :: y :: ys else y :: insertSorted x ys

/-- Python's `sorted` on a list of ints (insertion sort, ascending). -/
def sortInts (l : List Int) : List Int := l.foldr insertSorted []

/-- Python `ShadowNode.get_summary`: one-line geometry summary.  `sorted(set(..))`
becomes sort-after-dedup. -/
def ShadowNode.getSummary (n : ShadowNode) : String :=
  match n.rects with
  | [] => ""
  | [r] => "(p" ++ toString r.page ++ ", y:" ++ fmt0 r.y ++ "-" ++ fmt0 (r.y + r.h) ++ ")"
  | rs =>
      let pages := sortInts ((rs.map Rect.page).dedup)
      "(p" ++ toString (pages.headD 0) ++ "-p" ++ toString (pages.getLastD 0) ++ ", " ++
        toString rs.length ++ " frags)"

/-- The `payload_info` bracket of `to_tree_string`:
`ptype = payload.get("type") or payload.get("kind", "")`, shown when truthy
and different from the node's kind.  (Python `or` falls through on falsy
values; the falsy string is the empty one.) -/
def payloadInfoOf (n : ShadowNode) : String :=
  let ptype :=
    match n.payload.ptype with
    | some s => if s = "" then n.payload.kind.getD "" else s
    | none => n.payload.kind.getD ""
  if ptype ≠ "" ∧ ptype ≠ n.kind then " [" ++ ptype ++ "]" else ""

mutual

/-- Python `ShadowNode.to_tree_string`: ASCII tree block for one node. -/
def ShadowNode.toTreeString : ShadowNode → String → Bool → String
  | .mk k i sq c r p a sp sx sy, pfx, isLast =>
      let connector := if isLast then connLast else connMid
      let childPfx := pfx ++ (if isLast then indentLast else indentMid)
      pfx ++ connector ++ "[" ++ k ++ ":" ++ i ++ "]" ++
        payloadInfoOf (ShadowNode.mk k i sq c r p a sp sx sy) ++ " " ++
        (ShadowNode.mk k i sq c r p a sp sx sy).getSummary ++ "\n" ++
        ShadowNode.toTreeList c childPfx

/-- The `for i, child in enumerate(self.children)` loop:
`is_child_last = (i == len(children) - 1)`. -/
def ShadowNode.toTreeList : List ShadowNode → String → String
  | [], _ => ""
  | [c], pfx => ShadowNode.toTreeString c pfx true
  | c :: rest, pfx => ShadowNode.toTreeString c pfx false ++ ShadowNode.toTreeList rest pfx

end

/-- Python `print_tree`: everything the tree renderer prints (each `print` adds a
newline; the children's tree strings are printed with `end=""`). -/
def printTreeString (root : ShadowNode) : String :=
  "[DOCUMENT-ROOT] (Pages: " ++ toString (root.payload.pages.getD 1) ++ ")\n" ++
    ShadowNode.toTreeList root.children ""

/-- Python `sorted(rects_by_page.keys())`: the distinct pages that carry at least
one collected rect, ascending. -/
def rectPageKeys (l : List (String × String × Rect)) : List Int :=
  sortInts ((l.map (fun t => t.2.2.page)).dedup)

/-- Python `rects_by_page[page_num]`: the triples of one page, in collection
order (dict grouping preserves relative order within a page). -/
def rectsOnPage (l : List (String × String × Rect)) (pg : Int) :
    List (String × String × Rect) :=
  l.filter (fun t => t.2.2.page = pg)

/-- One `.rect` div of the overlay (the f-string with four `.1f` holes). -/
def rectDivHtml (t : String × String × Rect) : String :=
  rectDiv1 ++ fmt1 t.2.2.x ++ rectDiv2 ++ fmt1 t.2.2.y ++ rectDiv3 ++ fmt1 t.2.2.w ++
    rectDiv4 ++ fmt1 t.2.2.h ++ rectDiv5 ++ t.1 ++ rectDiv6 ++ t.2.1 ++ rectDiv7

/-- One page container of the overlay. -/
def pageHtml (l : List (String × String × Rect)) (pg : Int) : String :=
  pageOpen1 ++ toString pg ++ pageOpen2 ++
    String.join ((rectsOnPage l pg).map rectDivHtml) ++ pageClose

/-- Python `export_html`: the full HTML document string (`"".join(html_parts)`);
writing it to disk is I/O outside the model. -/
def exportHtml (root : ShadowNode) : String :=
  let pages := root.payload.pages.getD 1
  let allRects := collectAllRects root
  htmlHead ++ toString allRects.length ++ htmlAcross ++ toString pages ++ htmlLegendEnd ++
    String.join ((rectPageKeys allRects).map (pageHtml allRects)) ++ htmlFooter

/-- The geometric center of a rectangle, under the renderer's placement
semantics: the overlay emits `left: x; top: y`, so a rect occupies
`[x, x+w] × [y, y+h]` and its center sits at `(x + w/2, y + h/2)`. -/
def Rect.centerX (r : Rect) : ℚ := r.x + r.w / 2

/-- See `Rect.centerX`. -/
def Rect.centerY (r : Rect) : ℚ := r.y + r.h / 2

/-- A concrete probe whose payload `edge` is `"start"` (test input). -/
def mkStartProbe (pid : String) (pg : Int) (x y : ℚ) : Probe :=
  ⟨some pid, some ⟨some "sec", some (.str "start"), none, none, []⟩,
    some ⟨some pg, some x, some y⟩, some 0, none, none⟩

/-- A concrete probe whose payload `edge` is `"end"` (test input). -/
def mkEndProbe (pid : String) (pg : Int) (x y : ℚ) : Probe :=
  ⟨some pid, some ⟨some "sec", some (.str "end"), none, none, []⟩,
    some ⟨some pg, some x, some y⟩, some 1, none, none⟩

/-- A concrete probe with no pairing marker (test input). -/
def mkAtomicProbe (pid : String) (pg : Int) (x y : ℚ) : Probe :=
  ⟨some pid, some ⟨some "fig", none, none, none, []⟩,
    some ⟨some pg, some x, some y⟩, some 2, none, none⟩

/-- A concrete probe with an arbitrary payload `edge` value and an arbitrary
top-level pairing field (test input). -/
def mkEdgeProbe (pid : String) (e : Option PVal) (etop : Option PVal) : Probe :=
  ⟨some pid, some ⟨some "sec", e, none, none, []⟩,
    some ⟨some 1, some 10, some 20⟩, some 3, none, etop⟩

/-! ## Properties of the `-start` stripping -/

lemma strip_cons_of_not_mark (c : Char) (l : List Char)
    (h : headIsMark (c :: l) = false) :
    stripStartMarks (c :: l) = c :: stripStartMarks l := by
  rw [stripStartMarks.eq_def]
  split
  · rename_i rest heq
    rw [heq] at h
    simp [headIsMark, sfxPat] at h
  · rename_i x c2 rest heq h2
    injection h2 with h3 h4
    subst h3
    subst h4
    rfl
  · rename_i heq
    exact absurd heq (List.cons_ne_nil c l)

lemma contains_cons_eq (c : Char) (l : List Char) :
    containsStartMark (c :: l) = (headIsMark (c :: l) || containsStartMark l) := by
  rw [containsStartMark.eq_def]
  split
  · rename_i rest heq
    rw [heq]
    simp [headIsMark, sfxPat]
  · rename_i x c2 rest heq h2
    injection h2 with h3 h4
    subst h3
    subst h4
    have hm : headIsMark (c :: l) = false := by
      by_contra hcon
      rw [Bool.not_eq_false, headIsMark, decide_eq_true_iff] at hcon
      have h5 := List.take_append_drop 6 (c :: l)
      rw [hcon] at h5
      simp [sfxPat] at h5
      exact heq (List.drop 5 l) h5.1.symm h5.2.symm
    rw [hm]
    simp
  · rename_i heq
    exact absurd heq (List.cons_ne_nil c l)

/-- A list with no occurrence of `-start` is left unchanged by the
stripping. -/
lemma strip_of_no_mark : ∀ l : List Char,
    containsStartMark l = false → stripStartMarks l = l := by
  intro l
  induction l with
  | nil => intro _; rfl
  | cons c rest ih =>
      intro h
      rw [contains_cons_eq, Bool.or_eq_false_iff] at h
      rw [strip_cons_of_not_mark c rest h.1, ih h.2]

lemma headIsMark_append_sfx (c : Char) (rest : List Char)
    (h : headIsMark (c :: rest) = false) :
    headIsMark (c :: (rest ++ sfxPat)) = false := by
  by_contra hcon
  rw [Bool.not_eq_false, headIsMark, decide_eq_true_iff] at hcon
  rw [show c :: (rest ++ sfxPat) = (c :: rest) ++ sfxPat from rfl] at hcon
  rcases Nat.lt_or_ge rest.length 5 with hlen | hlen
  · rw [List.take_append_eq_append_take,
      List.take_of_length_le (by simp; omega)] at hcon
    have hdrop := congrArg (List.drop (c :: rest).length) hcon.symm
    rw [List.drop_left] at hdrop
    have hlen2 : (c :: rest).length = rest.length + 1 := by simp
    interval_cases hl : rest.length
    all_goals simp [sfxPat, hl] at hdrop
  · rw [List.take_append_of_le_length (by simp; omega)] at hcon
    exact absurd hcon (of_decide_eq_false h)

/-- Appending `-start` to a list with no occurrence of the pattern and then
stripping yields the original list back: the pattern has no border with
itself, so no occurrence straddles the append point. -/
lemma strip_append_sfx : ∀ l : List Char,
    containsStartMark l = false → stripStartMarks (l ++ sfxPat) = l := by
  intro l
  induction l with
  | nil => intro _; rfl
  | cons c rest ih =>
      intro h
      rw [contains_cons_eq, Bool.or_eq_false_iff] at h
      rw [List.cons_append,
        strip_cons_of_not_mark c (rest ++ sfxPat) (headIsMark_append_sfx c rest h.1),
        ih h.2]

/-! ## Small algebra of `ShadowNode` operations -/

@[simp] lemma ShadowNode.kind_mk (k i : String) (s : Int) (c : List ShadowNode)
    (r : List Rect) (p : Payload) (a : Bool) (sp : Int) (sx sy : ℚ) :
    (ShadowNode.mk k i s c r p a sp sx sy).kind = k := rfl

@[simp] lemma ShadowNode.id_mk (k i : String) (s : Int) (c : List ShadowNode)
    (r : List Rect) (p : Payload) (a : Bool) (sp : Int) (sx sy : ℚ) :
    (ShadowNode.mk k i s c r p a sp sx sy).id = i := rfl

@[simp] lemma ShadowNode.children_mk (k i : String) (s : Int) (c : List ShadowNode)
    (r : List Rect) (p : Payload) (a : Bool) (sp : Int) (sx sy : ℚ) :
    (ShadowNode.mk k i s c r p a sp sx sy).children = c := rfl

@[simp] lemma ShadowNode.rects_mk (k i : String) (s : Int) (c : List ShadowNode)
    (r : List Rect) (p : Payload) (a : Bool) (sp : Int) (sx sy : ℚ) :
    (ShadowNode.mk k i s c r p a sp sx sy).rects = r := rfl

@[simp] lemma ShadowNode.payload_mk (k i : String) (s : Int) (c : List ShadowNode)
    (r : List Rect) (p : Payload) (a : Bool) (sp : Int) (sx sy : ℚ) :
    (ShadowNode.mk k i s c r p a sp sx sy).payload = p := rfl

@[simp] lemma ShadowNode.isAtomic_mk (k i : String) (s : Int) (c : List ShadowNode)
    (r : List Rect) (p : Payload) (a : Bool) (sp : Int) (sx sy : ℚ) :
    (ShadowNode.mk k i s c r p a sp sx sy).isAtomic = a := rfl

@[simp] lemma ShadowNode.addChild_kind (n m : ShadowNode) : (n.addChild m).kind = n.kind := by
  cases n; rfl

@[simp] lemma ShadowNode.addChild_id (n m : ShadowNode) : (n.addChild m).id = n.id := by
  cases n; rfl

@[simp] lemma ShadowNode.addChild_rects (n m : ShadowNode) : (n.addChild m).rects = n.rects := by
  cases n; rfl

@[simp] lemma ShadowNode.addChild_isAtomic (n m : ShadowNode) :
    (n.addChild m).isAtomic = n.isAtomic := by
  cases n; rfl

@[simp] lemma ShadowNode.addChild_payload (n m : ShadowNode) :
    (n.addChild m).payload = n.payload := by
  cases n; rfl

@[simp] lemma ShadowNode.addChild_children (n m : ShadowNode) :
    (n.addChild m).children = n.children ++ [m] := by
  cases n; rfl

@[simp] lemma ShadowNode.close_kind (n : ShadowNode) (loc : Location) :
    (n.close loc).kind = n.kind := by
  cases n; rw [ShadowNode.close]; split <;> rfl

@[simp] lemma ShadowNode.close_id (n : ShadowNode) (loc : Location) :
    (n.close loc).id = n.id := by
  cases n; rw [ShadowNode.close]; split <;> rfl

@[simp] lemma ShadowNode.close_children (n : ShadowNode) (loc : Location) :
    (n.close loc).children = n.children := by
  cases n; rw [ShadowNode.close]; split <;> rfl

@[simp] lemma ShadowNode.setStart_rects (n : ShadowNode) (loc : Location) :
    (n.setStart loc).rects = n.rects := by
  cases n; rfl

@[simp] lemma ShadowNode.setStart_children (n : ShadowNode) (loc : Location) :
    (n.setStart loc).children = n.children := by
  cases n; rfl

@[simp] lemma ShadowNode.setStart_kind (n : ShadowNode) (loc : Location) :
    (n.setStart loc).kind = n.kind := by
  cases n; rfl

@[simp] lemma ShadowNode.setStart_id (n : ShadowNode) (loc : Location) :
    (n.setStart loc).id = n.id := by
  cases n; rfl

@[simp] lemma ShadowNode.addAtomicRect_children (n : ShadowNode) (loc : Location) :
    (n.addAtomicRect loc).children = n.children := by
  cases n; rfl

@[simp] lemma ShadowNode.addAtomicRect_id (n : ShadowNode) (loc : Location) :
    (n.addAtomicRect loc).id = n.id := by
  cases n; rfl

@[simp] lemma ShadowNode.addAtomicRect_isAtomic (n : ShadowNode) (loc : Location) :
    (n.addAtomicRect loc).isAtomic = n.isAtomic := by
  cases n; rfl

@[simp] lemma ShadowNode.addAtomicRect_rects (n : ShadowNode) (loc : Location) :
    (n.addAtomicRect loc).rects =
      n.rects ++ [⟨loc.page.getD 1, loc.x.getD 0, loc.y.getD 0, 10, 10⟩] := by
  cases n; rfl

@[simp] lemma ShadowNode.setPages_children (n : ShadowNode) (m : Nat) :
    (n.setPages m).children = n.children := by
  cases n; rfl

@[simp] lemma ShadowNode.setPages_kind (n : ShadowNode) (m : Nat) :
    (n.setPages m).kind = n.kind := by
  cases n; rfl

@[simp] lemma ShadowNode.setPages_id (n : ShadowNode) (m : Nat) :
    (n.setPages m).id = n.id := by
  cases n; rfl

@[simp] lemma ShadowNode.setPages_rects (n : ShadowNode) (m : Nat) :
    (n.setPages m).rects = n.rects := by
  cases n; rfl

@[simp] lemma ShadowNode.setPages_payload_pages (n : ShadowNode) (m : Nat) :
    (n.setPages m).payload.pages = some (m : Int) := by
  cases n; rfl

/-- Lemma: `startNode` has no rectangles (a paired node while still open). -/
@[simp] lemma startNode_rects (p : Probe) : (startNode p).rects = [] := by
  simp [startNode]

@[simp] lemma startNode_id (p : Probe) : (startNode p).id = stripId (pidOf p) := by
  simp [startNode]

@[simp] lemma startNode_children (p : Probe) : (startNode p).children = [] := by
  simp [startNode]

@[simp] lemma atomicNode_id (p : Probe) : (atomicNode p).id = pidOf p := by
  simp [atomicNode]

@[simp] lemma atomicNode_isAtomic (p : Probe) : (atomicNode p).isAtomic = true := by
  simp [atomicNode]

@[simp] lemma atomicNode_rects (p : Probe) :
    (atomicNode p).rects =
      [⟨(locOf p).page.getD 1, (locOf p).x.getD 0, (locOf p).y.getD 0, 10, 10⟩] := by
  simp [atomicNode]

@[simp] lemma atomicNode_children (p : Probe) : (atomicNode p).children = [] := by
  simp [atomicNode]

/-! ## How one loop iteration transforms the stack -/

lemma isEnd_isStart_false (p : Probe) (h : isEnd p = true) : isStart p = false := by
  rw [isEnd, decide_eq_true_iff] at h
  rw [isStart, decide_eq_false_iff_not]
  rw [h]
  intro hc
  simp at hc

lemma step_pagesSeen (s : BState) (p : Probe) :
    (step s p).pagesSeen = pagesUpd p s.pagesSeen := by
  rw [step]
  rcases s.stack with _ | ⟨top, rest⟩
  · rfl
  · dsimp only
    split
    · rfl
    · split
      · rcases rest with _ | ⟨parent, rest2⟩ <;> rfl
      · rfl

lemma step_stack_start (s : BState) (p : Probe) (top : ShadowNode)
    (rest : List ShadowNode) (hs : s.stack = top :: rest) (hp : isStart p = true) :
    (step s p).stack = startNode p :: top :: rest := by
  rw [isStart, decide_eq_true_iff] at hp
  rw [step, hs]
  simp [hp]

lemma step_stack_end_root (s : BState) (p : Probe) (top : ShadowNode)
    (hs : s.stack = [top]) (hp : isEnd p = true) :
    (step s p).stack = [top] := by
  have hns := isEnd_isStart_false p hp
  rw [isStart, decide_eq_false_iff_not] at hns
  rw [isEnd, decide_eq_true_iff] at hp
  rw [step, hs]
  simp [hp, hns]

lemma step_stack_end_pop (s : BState) (p : Probe) (top parent : ShadowNode)
    (rest2 : List ShadowNode) (hs : s.stack = top :: parent :: rest2)
    (hp : isEnd p = true) :
    (step s p).stack = parent.addChild (top.close (locOf p)) :: rest2 := by
  have hns := isEnd_isStart_false p hp
  rw [isStart, decide_eq_false_iff_not] at hns
  rw [isEnd, decide_eq_true_iff] at hp
  rw [step, hs]
  simp [hp, hns]

lemma step_stack_atomic (s : BState) (p : Probe) (top : ShadowNode)
    (rest : List ShadowNode) (hs : s.stack = top :: rest)
    (h1 : isStart p = false) (h2 : isEnd p = false) :
    (step s p).stack = top.addChild (atomicNode p) :: rest := by
  rw [isStart, decide_eq_false_iff_not] at h1
  rw [isEnd, decide_eq_false_iff_not] at h2
  rw [step, hs]
  simp [h1, h2]

/-! ## Stack invariants over the whole loop -/

lemma step_stack_length (s : BState) (p : Probe) (hs : s.stack ≠ []) :
    (step s p).stack.length = stepDepth s.stack.length p := by
  rcases hstk : s.stack with _ | ⟨top, rest⟩
  · exact absurd hstk hs
  · rcases h1 : isStart p with _ | _
    · rcases h2 : isEnd p with _ | _
      · rw [step_stack_atomic s p top rest hstk h1 h2, stepDepth, h1, h2]
        simp
      · rcases rest with _ | ⟨parent, rest2⟩
        · rw [step_stack_end_root s p top hstk h2, stepDepth, h1, h2]
          simp
        · rw [step_stack_end_pop s p top parent rest2 hstk h2, stepDepth, h1, h2]
          simp
    · rw [step_stack_start s p top rest hstk h1, stepDepth, h1]
      simp

lemma step_stack_ne_nil (s : BState) (p : Probe) (hs : s.stack ≠ []) :
    (step s p).stack ≠ [] := by
  rcases hstk : s.stack with _ | ⟨top, rest⟩
  · exact absurd hstk hs
  · rcases h1 : isStart p with _ | _
    · rcases h2 : isEnd p with _ | _
      · rw [step_stack_atomic s p top rest hstk h1 h2]
        exact List.cons_ne_nil _ _
      · rcases rest with _ | ⟨parent, rest2⟩
        · rw [step_stack_end_root s p top hstk h2]
          exact List.cons_ne_nil _ _
        · rw [step_stack_end_pop s p top parent rest2 hstk h2]
          exact List.cons_ne_nil _ _
    · rw [step_stack_start s p top rest hstk h1]
      exact List.cons_ne_nil _ _

lemma foldl_stack_ne_nil (ps : List Probe) (s : BState) (hs : s.stack ≠ []) :
    (ps.foldl step s).stack ≠ [] := by
  induction ps generalizing s with
  | nil => exact hs
  | cons p ps ih => exact ih (step s p) (step_stack_ne_nil s p hs)

/-- The stack length after the loop is computed by the pure depth fold. -/
lemma foldl_stack_length (ps : List Probe) (s : BState) (hs : s.stack ≠ []) :
    (ps.foldl step s).stack.length = depthFold s.stack.length ps := by
  induction ps generalizing s with
  | nil => rfl
  | cons p ps ih =>
      rw [List.foldl_cons, depthFold, ← step_stack_length s p hs]
      exact ih (step s p) (step_stack_ne_nil s p hs)

lemma lastKindId_cons_cons (a b : ShadowNode) (l : List ShadowNode) :
    lastKindId (a :: b :: l) = lastKindId (b :: l) := by
  rw [lastKindId, lastKindId, List.getLast?_cons_cons]

lemma lastKindId_addChild_head (a c : ShadowNode) (l : List ShadowNode) :
    lastKindId (a.addChild c :: l) = lastKindId (a :: l) := by
  rcases l with _ | ⟨b, l2⟩
  · simp [lastKindId]
  · rw [lastKindId_cons_cons, lastKindId_cons_cons]

lemma step_lastKindId (s : BState) (p : Probe) (hs : s.stack ≠ []) :
    lastKindId (step s p).stack = lastKindId s.stack := by
  rcases hstk : s.stack with _ | ⟨top, rest⟩
  · exact absurd hstk hs
  · rcases h1 : isStart p with _ | _
    · rcases h2 : isEnd p with _ | _
      · rw [step_stack_atomic s p top rest hstk h1 h2, lastKindId_addChild_head]
      · rcases rest with _ | ⟨parent, rest2⟩
        · rw [step_stack_end_root s p top hstk h2]
        · rw [step_stack_end_pop s p top parent rest2 hstk h2,
            lastKindId_addChild_head, lastKindId_cons_cons]
    · rw [step_stack_start s p top rest hstk h1, lastKindId_cons_cons]

lemma foldl_lastKindId (ps : List Probe) (s : BState) (hs : s.stack ≠ []) :
    lastKindId (ps.foldl step s).stack = lastKindId s.stack := by
  induction ps generalizing s with
  | nil => rfl
  | cons p ps ih =>
      rw [List.foldl_cons, ih (step s p) (step_stack_ne_nil s p hs),
        step_lastKindId s p hs]

/-- Every frame on the stack has an empty `rects` list: geometry is only
attached to a node when it leaves the stack (or never, if it stays open). -/
lemma step_stack_rects_nil (s : BState) (p : Probe)
    (hinv : ∀ n ∈ s.stack, n.rects = []) :
    ∀ n ∈ (step s p).stack, n.rects = [] := by
  rcases hstk : s.stack with _ | ⟨top, rest⟩
  · rw [step, hstk]
    intro n hn
    simp at hn
  · rcases h1 : isStart p with _ | _
    · rcases h2 : isEnd p with _ | _
      · rw [step_stack_atomic s p top rest hstk h1 h2]
        intro n hn
        rcases List.mem_cons.1 hn with h | h
        · rw [h, ShadowNode.addChild_rects]
          exact hinv top (hstk ▸ List.mem_cons_self top rest)
        · exact hinv n (hstk ▸ List.mem_cons_of_mem top h)
      · rcases rest with _ | ⟨parent, rest2⟩
        · rw [step_stack_end_root s p top hstk h2]
          intro n hn
          exact hinv n (hstk ▸ hn)
        · rw [step_stack_end_pop s p top parent rest2 hstk h2]
          intro n hn
          rcases List.mem_cons.1 hn with h | h
          · rw [h, ShadowNode.addChild_rects]
            exact hinv parent (hstk ▸ List.mem_cons_of_mem top (List.mem_cons_self parent rest2))
          · exact hinv n (hstk ▸ List.mem_cons_of_mem top (List.mem_cons_of_mem parent h))
    · rw [step_stack_start s p top rest hstk h1]
      intro n hn
      rcases List.mem_cons.1 hn with h | h
      · rw [h, startNode_rects]
      · exact hinv n (hstk ▸ h)

lemma foldl_stack_rects_nil (ps : List Probe) (s : BState)
    (hinv : ∀ n ∈ s.stack, n.rects = []) :
    ∀ n ∈ (ps.foldl step s).stack, n.rects = [] := by
  induction ps generalizing s with
  | nil => exact hinv
  | cons p ps ih => exact ih (step s p) (step_stack_rects_nil s p hinv)

/-! ## Node-count conservation -/

@[simp] lemma treeSizeList_nil : treeSizeList [] = 0 := rfl

@[simp] lemma treeSizeList_cons (n : ShadowNode) (ns : List ShadowNode) :
    treeSizeList (n :: ns) = treeSize n + treeSizeList ns := rfl

lemma treeSizeList_append (a b : List ShadowNode) :
    treeSizeList (a ++ b) = treeSizeList a + treeSizeList b := by
  induction a with
  | nil => simp
  | cons n ns ih => simp [ih]; omega

lemma treeSize_eq (n : ShadowNode) : treeSize n = 1 + treeSizeList n.children := by
  cases n; rfl

lemma treeSize_addChild (n m : ShadowNode) :
    treeSize (n.addChild m) = treeSize n + treeSize m := by
  rw [treeSize_eq (n.addChild m), ShadowNode.addChild_children, treeSizeList_append,
    treeSizeList_cons, treeSizeList_nil, treeSize_eq n]
  omega

lemma treeSize_close (n : ShadowNode) (loc : Location) :
    treeSize (n.close loc) = treeSize n := by
  rw [treeSize_eq, treeSize_eq, ShadowNode.close_children]

lemma treeSize_startNode (p : Probe) : treeSize (startNode p) = 1 := by
  rw [treeSize_eq, startNode_children, treeSizeList_nil]

lemma treeSize_atomicNode (p : Probe) : treeSize (atomicNode p) = 1 := by
  rw [treeSize_eq, atomicNode_children, treeSizeList_nil]

lemma treeSize_setPages (n : ShadowNode) (m : Nat) :
    treeSize (n.setPages m) = treeSize n := by
  rw [treeSize_eq, treeSize_eq, ShadowNode.setPages_children]

lemma startCount_cons (p : Probe) (ps : List Probe) :
    startCount (p :: ps) = startCount ps + (if isStart p then 1 else 0) := by
  simp [startCount, List.countP_cons]

lemma endCount_cons (p : Probe) (ps : List Probe) :
    endCount (p :: ps) = endCount ps + (if isEnd p then 1 else 0) := by
  simp [endCount, List.countP_cons]

lemma atomicCount_cons (p : Probe) (ps : List Probe) :
    atomicCount (p :: ps) = atomicCount ps + (if !isStart p && !isEnd p then 1 else 0) := by
  simp [atomicCount, List.countP_cons]

lemma step_stackSizeSum (s : BState) (p : Probe) (hs : s.stack ≠ []) :
    stackSizeSum (step s p).stack =
      stackSizeSum s.stack + (if isStart p then 1 else if isEnd p then 0 else 1) := by
  rcases hstk : s.stack with _ | ⟨top, rest⟩
  · exact absurd hstk hs
  · rcases h1 : isStart p with _ | _
    · rcases h2 : isEnd p with _ | _
      · rw [step_stack_atomic s p top rest hstk h1 h2]
        simp [stackSizeSum, treeSize_addChild, treeSize_atomicNode]
        omega
      · rcases rest with _ | ⟨parent, rest2⟩
        · rw [step_stack_end_root s p top hstk h2]
          simp [stackSizeSum, h2]
        · rw [step_stack_end_pop s p top parent rest2 hstk h2]
          simp [stackSizeSum, treeSize_addChild, treeSize_close, h2]
          omega
    · rw [step_stack_start s p top rest hstk h1]
      simp [stackSizeSum, treeSize_startNode]
      omega

lemma foldl_stackSizeSum (ps : List Probe) (s : BState) (hs : s.stack ≠ []) :
    stackSizeSum (ps.foldl step s).stack =
      stackSizeSum s.stack + startCount ps + atomicCount ps := by
  induction ps generalizing s with
  | nil => simp [startCount, atomicCount]
  | cons p ps ih =>
      rw [List.foldl_cons, ih (step s p) (step_stack_ne_nil s p hs),
        step_stackSizeSum s p hs, startCount_cons, atomicCount_cons]
      rcases h1 : isStart p with _ | _ <;> rcases h2 : isEnd p with _ | _ <;>
        simp [h1, h2] <;> omega

lemma treeSize_flattenStack (top : ShadowNode) (rest : List ShadowNode) :
    treeSize (flattenStack top rest) = treeSize top + stackSizeSum rest := by
  induction rest generalizing top with
  | nil => simp [flattenStack, stackSizeSum]
  | cons parent rest2 ih =>
      rw [flattenStack, ih, treeSize_addChild]
      simp [stackSizeSum]
      omega

/-! ## Depth and pop arithmetic for well-nested sequences -/

lemma stepDepth_of_start (d : Nat) (p : Probe) (h : isStart p = true) :
    stepDepth d p = d + 1 := by
  rw [stepDepth, h]
  simp

lemma stepDepth_of_end (d : Nat) (p : Probe) (h : isEnd p = true) :
    stepDepth d p = if 1 < d then d - 1 else d := by
  rw [stepDepth, isEnd_isStart_false p h, h]
  simp

lemma stepDepth_of_atomic (d : Nat) (p : Probe) (h1 : isStart p = false)
    (h2 : isEnd p = false) : stepDepth d p = d := by
  rw [stepDepth, h1, h2]
  simp

lemma depthPop_arith : ∀ (ps : List Probe) (d : Nat),
    wellNestedAux d ps = true →
      depthFold (d + 1) ps = 1 ∧ popFold (d + 1) ps = endCount ps ∧
        endCount ps = startCount ps + d := by
  intro ps
  induction ps with
  | nil =>
      intro d h
      simp [wellNestedAux] at h
      subst h
      exact ⟨rfl, rfl, rfl⟩
  | cons p ps ih =>
      intro d h
      rw [wellNestedAux] at h
      rw [depthFold, popFold, endCount_cons, startCount_cons]
      rcases h1 : isStart p with _ | _
      · rcases h2 : isEnd p with _ | _
        · rw [h1, h2] at h
          simp only [Bool.false_eq_true, if_false] at h
          obtain ⟨ha, hb, hc⟩ := ih d h
          rw [stepDepth_of_atomic (d + 1) p h1 h2]
          refine ⟨ha, ?_, ?_⟩
          · simp [h2, hb]
          · simp [h1, h2]
            omega
        · rw [h1, h2] at h
          simp only [Bool.false_eq_true, if_false, if_true] at h
          rcases d with _ | d2
          · simp at h
          · simp only [Nat.lt_irrefl, Nat.zero_lt_succ, if_true,
              Nat.add_sub_cancel] at h
            obtain ⟨ha, hb, hc⟩ := ih d2 h
            rw [stepDepth_of_end (d2 + 1 + 1) p h2]
            have hgt : 1 < d2 + 1 + 1 := by omega
            rw [if_pos hgt, Nat.add_sub_cancel]
            refine ⟨ha, ?_, ?_⟩
            · simp [h2, hgt, hb]
              omega
            · simp [h1, h2]
              omega
      · rw [h1] at h
        simp only [if_true] at h
        obtain ⟨ha, hb, hc⟩ := ih (d + 1) h
        have hne : isEnd p = false := by
          by_contra hcon
          rw [Bool.not_eq_false] at hcon
          rw [isEnd_isStart_false p hcon] at h1
          exact Bool.false_ne_true h1
        rw [stepDepth_of_start (d + 1) p h1]
        refine ⟨ha, ?_, ?_⟩
        · simp [hne, hb]
        · simp [h1, hne]
          omega

/-! ## The fragment collector -/

lemma collect_eq_preorder :
    ∀ n : ShadowNode, collectAllRects n = preorderTriples n := by
  apply collectAllRects.induct (fun n => collectAllRects n = preorderTriples n)
    (fun l => collectRectsList l = preorderTriplesList l)
  · intro k i s c r p a sp sx sy ih
    rw [collectAllRects, preorderTriples, preorderNodes]
    simp [preorderTriplesList, ih]
  · rfl
  · intro n ns ih1 ih2
    rw [collectRectsList, ih1, ih2]
    simp [preorderTriplesList, preorderList, preorderTriples]

lemma collect_length_eq_rectCountSum :
    ∀ n : ShadowNode, (collectAllRects n).length = rectCountSum n := by
  apply collectAllRects.induct
    (fun n => (collectAllRects n).length = rectCountSum n)
    (fun l => (collectRectsList l).length = rectCountSumList l)
  · intro k i s c r p a sp sx sy ih
    simp [collectAllRects, rectCountSum, ih]
  · rfl
  · intro n ns ih1 ih2
    simp [collectRectsList, rectCountSumList, ih1, ih2]

lemma collect_empty_tree (n : ShadowNode) (hr : n.rects = []) (hc : n.children = []) :
    collectAllRects n = [] := by
  cases n
  simp at hr hc
  subst hr
  subst hc
  rfl


/-! ## The claims -/

/-- C1: for every well-nested probe sequence (each `end` closes the most
recently opened, still-open `start`), `build_shadow_dom` performs exactly as
many pop/close operations as push/start operations, and after the full
sequence the build stack contains only the root node (a single frame, of
kind `DOCUMENT` and id `ROOT`). -/
theorem c1_wellNested_balance (ps : List Probe) (h : WellNested ps) :
    popCount ps = startCount ps ∧
    (runBuild ps).stack.map (fun n => (n.kind, n.id)) = [("DOCUMENT", "ROOT")] := by
  obtain ⟨ha, hb, hc⟩ := depthPop_arith ps 0 h
  refine ⟨by rw [popCount, hb, hc]; simp, ?_⟩
  have hne : initState.stack ≠ [] := by simp [initState]
  have hlen : (runBuild ps).stack.length = 1 := by
    rw [runBuild, foldl_stack_length ps initState hne]
    simpa [initState] using ha
  have hlast : lastKindId (runBuild ps).stack = some ("DOCUMENT", "ROOT") := by
    rw [runBuild, foldl_lastKindId ps initState hne]
    simp [initState, lastKindId, rootNode]
  rcases hstk : (runBuild ps).stack with _ | ⟨a, rest⟩
  · rw [hstk] at hlen
    simp at hlen
  · rw [hstk] at hlen hlast
    rcases rest with _ | ⟨b, rest2⟩
    · simp [lastKindId] at hlast
      simp [hlast]
    · simp at hlen

/-- Witness for C1 at a concrete well-nested sequence
(start, atomic, start, end, end). -/
theorem c1_wellNested_balance_witness :
    WellNested [mkStartProbe "a-start" 1 0 100, mkAtomicProbe "m" 1 5 5,
      mkStartProbe "b-start" 2 0 10, mkEndProbe "b-end" 2 0 40,
      mkEndProbe "a-end" 2 0 90] ∧
    (popCount [mkStartProbe "a-start" 1 0 100, mkAtomicProbe "m" 1 5 5,
        mkStartProbe "b-start" 2 0 10, mkEndProbe "b-end" 2 0 40,
        mkEndProbe "a-end" 2 0 90] =
      startCount [mkStartProbe "a-start" 1 0 100, mkAtomicProbe "m" 1 5 5,
        mkStartProbe "b-start" 2 0 10, mkEndProbe "b-end" 2 0 40,
        mkEndProbe "a-end" 2 0 90] ∧
    (runBuild [mkStartProbe "a-start" 1 0 100, mkAtomicProbe "m" 1 5 5,
        mkStartProbe "b-start" 2 0 10, mkEndProbe "b-end" 2 0 40,
        mkEndProbe "a-end" 2 0 90]).stack.map (fun n => (n.kind, n.id)) =
      [("DOCUMENT", "ROOT")]) :=
  ⟨by unfold WellNested; decide, c1_wellNested_balance _ (by unfold WellNested; decide)⟩

/-- C2: closing a paired node whose opening location `(p0, x0, y0)` and
closing location `(p1, x1, y1)` lie on different pages appends exactly two
rectangles, in order: one on page `p0` at `(x0, y0)` of height
`max(842 - y0 - 50, 50)`, one on page `p1` at `(x1, 50)` of height
`max(y1 - 50, 50)`; each height is at least the floor 50 and both widths
are the fixed configured `DEFAULT_RECT_WIDTH`.  Only these two fragments
exist no matter how many pages lie between `p0` and `p1`. -/
theorem c2_cross_page_two_fragments (k i : String) (sq : Int)
    (c : List ShadowNode) (pl : Payload) (a : Bool) (p0 : Int) (x0 y0 : ℚ)
    (p1 : Int) (x1 y1 : ℚ) (hp : p0 ≠ p1) :
    ((ShadowNode.mk k i sq c [] pl a p0 x0 y0).close
        ⟨some p1, some x1, some y1⟩).rects =
      [⟨p0, x0, y0, DEFAULT_RECT_WIDTH, max (A4_HEIGHT_PT - y0 - 50) 50⟩,
       ⟨p1, x1, 50, DEFAULT_RECT_WIDTH, max (y1 - 50) 50⟩] ∧
    (50 : ℚ) ≤ max (A4_HEIGHT_PT - y0 - 50) 50 ∧
    (50 : ℚ) ≤ max (y1 - 50) 50 := by
  refine ⟨?_, le_max_right _ _, le_max_right _ _⟩
  rw [ShadowNode.close]
  simp [hp]

/-- Witness for C2 at the spec's Scenario 2: `(1, 0, 800) → (2, 0, 100)`
gives heights `max(842-800-50, 50) = 50` and `max(100-50, 50) = 50`. -/
theorem c2_cross_page_two_fragments_witness :
    ((ShadowNode.mk "sec" "s1" 0 [] [] emptyPayload false 1 0 800).close
        ⟨some 2, some 0, some 100⟩).rects =
      [⟨1, 0, 800, DEFAULT_RECT_WIDTH, 50⟩, ⟨2, 0, 50, DEFAULT_RECT_WIDTH, 50⟩] := by
  rw [(c2_cross_page_two_fragments "sec" "s1" 0 [] emptyPayload false 1 0 800 2 0 100
    (by decide)).1]
  norm_num [A4_HEIGHT_PT]

/-- C3: closing a paired node whose opening location `(p0, x0, y0)` and
closing location (same page `p0`, `(x1, y1)`) coincide in page appends
exactly one rectangle, on page `p0` at `(x0, y0)`, of the fixed configured
width and height `max(y1 - y0, 15)`; the height is at least `MIN_HEIGHT
= 15` in every case, including coinciding (`y1 = y0`) and inverted
(`y1 < y0`) locations, which the universal quantification covers. -/
theorem c3_same_page_single_fragment (k i : String) (sq : Int)
    (c : List ShadowNode) (pl : Payload) (a : Bool) (p0 : Int) (x0 y0 : ℚ)
    (x1 y1 : ℚ) :
    ((ShadowNode.mk k i sq c [] pl a p0 x0 y0).close
        ⟨some p0, some x1, some y1⟩).rects =
      [⟨p0, x0, y0, DEFAULT_RECT_WIDTH, max (y1 - y0) 15⟩] ∧
    (15 : ℚ) ≤ max (y1 - y0) 15 := by
  refine ⟨?_, le_max_right _ _⟩
  rw [ShadowNode.close]
  simp

/-- C4 counterexample: the claim says an occurrence of `-start` that is not
a trailing suffix is preserved.  The code runs
`probe_id.replace("-start", "")`, which removes *every* occurrence: the
`start` probe with identifier `"intro-start-note"` (which does not end in
`-start`) yields a node with id `"intro-note"`, not `"intro-start-note"`. -/
theorem c4_counterexample :
    (buildShadowDom [⟨some "intro-start-note",
        some ⟨some "sec", some (.str "start"), none, none, []⟩,
        some ⟨some 1, some 0, some 0⟩, some 0, none, none⟩]).children.map
      ShadowNode.id = ["intro-note"] ∧
    "intro-note" ≠ "intro-start-note" ∧
    (sfxPat.isSuffixOf "intro-start-note".data) = false := by
  refine ⟨by decide, by decide, by decide⟩

/-- C4 (amended): the node created for a `start` probe has id equal to the
probe identifier with **every** occurrence of `-start` removed (Python
`str.replace` semantics), not only a trailing suffix.  In particular an
identifier with no occurrence of `-start` is unchanged, and an identifier
of the form `s ++ "-start"` with no further occurrence loses exactly the
trailing suffix. -/
theorem c4_start_id_strips_every_mark (p : Probe) (pid : String)
    (hid : p.id = some pid) (hedge : probeEdge p = some (.str "start")) :
    (buildShadowDom [p]).children.map ShadowNode.id = [stripId pid] ∧
    (∀ s : String, containsStartMark s.data = false →
      stripId s = s ∧ stripId (s ++ "-start") = s) := by
  constructor
  · have hstart : isStart p = true := by
      rw [isStart]
      exact decide_eq_true hedge
    have h1 : (step initState p).stack = startNode p :: [rootNode] :=
      step_stack_start initState p rootNode [] rfl hstart
    rw [buildShadowDom, runBuild]
    rw [List.foldl_cons, List.foldl_nil]
    rw [h1]
    simp only [flattenStack]
    simp [rootNode, pidOf, hid]
  · intro s hs
    constructor
    · rw [stripId, strip_of_no_mark s.data hs]
    · rw [stripId, String.data_append]
      rw [show ("-start" : String).data = sfxPat from rfl]
      rw [strip_append_sfx s.data hs]

/-- Witness for C4 (amended) at a concrete `start` probe. -/
theorem c4_start_id_strips_every_mark_witness :
    ((buildShadowDom [mkStartProbe "sec1-start" 1 0 100]).children.map
        ShadowNode.id = [stripId "sec1-start"]) ∧
    (stripId "sec1" = "sec1" ∧ stripId ("sec1" ++ "-start") = "sec1") :=
  ⟨(c4_start_id_strips_every_mark (mkStartProbe "sec1-start" 1 0 100)
      "sec1-start" rfl rfl).1,
   (c4_start_id_strips_every_mark (mkStartProbe "sec1-start" 1 0 100)
      "sec1-start" rfl rfl).2 "sec1" (by decide)⟩

/-- C5 counterexample: the claim says the atomic marker rectangle is
*centered* at the probe's own location.  The code stores the location as
the rectangle's `(x, y)`, and the overlay renders `left: x; top: y`, so the
location is the rectangle's top-left corner: for an atomic probe at
`(100, 200)` the 10×10 rectangle's center is `(105, 205)`, not
`(100, 200)`. -/
theorem c5_counterexample :
    ((buildShadowDom [mkAtomicProbe "m1" 1 100 200]).children.map
        ShadowNode.rects = [[⟨1, 100, 200, 10, 10⟩]]) ∧
    Rect.centerX ⟨1, 100, 200, 10, 10⟩ = 105 ∧
    Rect.centerY ⟨1, 100, 200, 10, 10⟩ = 205 ∧
    Rect.centerX ⟨1, 100, 200, 10, 10⟩ ≠ 100 := by
  refine ⟨by decide, by norm_num [Rect.centerX], by norm_num [Rect.centerY],
    by norm_num [Rect.centerX]⟩

/-- C5 (amended): a probe with no pairing marker creates a node with
`isAtomic = true` and the probe's identifier unchanged, appends it as the
last child of the current stack top, never pushes it (the stack keeps its
length), and gives it exactly one rectangle of the fixed 10×10 marker size
whose top-left corner is the probe's own location, independent of any
measured extent. -/
theorem c5_atomic_probe_marker (s : BState) (p : Probe) (top : ShadowNode)
    (rest : List ShadowNode) (hs : s.stack = top :: rest)
    (hedge : probeEdge p = none) :
    (step s p).stack = top.addChild (atomicNode p) :: rest ∧
    (step s p).stack.length = s.stack.length ∧
    (atomicNode p).isAtomic = true ∧
    (atomicNode p).id = pidOf p ∧
    (atomicNode p).rects =
      [⟨(locOf p).page.getD 1, (locOf p).x.getD 0, (locOf p).y.getD 0, 10, 10⟩] := by
  have h1 : isStart p = false := by
    rw [isStart, decide_eq_false_iff_not, hedge]
    intro hc
    exact Option.noConfusion hc
  have h2 : isEnd p = false := by
    rw [isEnd, decide_eq_false_iff_not, hedge]
    intro hc
    exact Option.noConfusion hc
  have hst := step_stack_atomic s p top rest hs h1 h2
  refine ⟨hst, ?_, atomicNode_isAtomic p, atomicNode_id p, atomicNode_rects p⟩
  rw [hst, hs]
  simp

/-- Witness for C5 (amended): an atomic probe (no `edge` key) processed on
the initial stack. -/
theorem c5_atomic_probe_marker_witness :
    (step initState (mkAtomicProbe "m2" 1 7 9)).stack =
      rootNode.addChild (atomicNode (mkAtomicProbe "m2" 1 7 9)) :: [] ∧
    (step initState (mkAtomicProbe "m2" 1 7 9)).stack.length =
      initState.stack.length ∧
    (atomicNode (mkAtomicProbe "m2" 1 7 9)).isAtomic = true ∧
    (atomicNode (mkAtomicProbe "m2" 1 7 9)).id = pidOf (mkAtomicProbe "m2" 1 7 9) ∧
    (atomicNode (mkAtomicProbe "m2" 1 7 9)).rects =
      [⟨(locOf (mkAtomicProbe "m2" 1 7 9)).page.getD 1,
        (locOf (mkAtomicProbe "m2" 1 7 9)).x.getD 0,
        (locOf (mkAtomicProbe "m2" 1 7 9)).y.getD 0, 10, 10⟩] :=
  c5_atomic_probe_marker initState (mkAtomicProbe "m2" 1 7 9) rootNode [] rfl rfl

/-- C6: an `end` probe processed while the build stack holds only the root
is absorbed as a no-op: the stack (and with it every node hanging off it,
so in particular the root's children and every node's rectangles) is
exactly what it was before the probe, and the stack depth is unchanged. -/
theorem c6_end_at_root_noop (s : BState) (p : Probe) (hE : isEnd p = true)
    (hL : s.stack.length = 1) :
    (step s p).stack = s.stack ∧ (step s p).stack.length = s.stack.length := by
  have : (step s p).stack = s.stack := by
    rcases hstk : s.stack with _ | ⟨top, rest⟩
    · rw [hstk] at hL
      simp at hL
    · rcases rest with _ | ⟨b, rest2⟩
      · exact step_stack_end_root s p top hstk hE
      · rw [hstk] at hL
        simp at hL
  exact ⟨this, by rw [this]⟩

/-- Witness for C6: an `end` probe against the initial stack `[root]`. -/
theorem c6_end_at_root_noop_witness :
    (step initState (mkEndProbe "stray" 1 0 0)).stack = initState.stack ∧
    (step initState (mkEndProbe "stray" 1 0 0)).stack.length =
      initState.stack.length :=
  c6_end_at_root_noop initState (mkEndProbe "stray" 1 0 0) (by decide) (by decide)

/-- C7: `collect_all_rects` returns the `(kind, id, rect)` triples in
pre-order — each node's own rectangles, in stored order, before those of
its children, with children visited in stored order (`preorderTriples` is
the independent description of that order); the number of triples equals
the sum of rectangle counts over all nodes; and an empty tree (a root with
no rectangles and no children, such as `rootNode`) yields the empty list.
The collector is a pure function of the tree, so the tree is not mutated. -/
theorem c7_collect_preorder_complete (n : ShadowNode) :
    collectAllRects n = preorderTriples n ∧
    (collectAllRects n).length = rectCountSum n ∧
    collectAllRects rootNode = [] :=
  ⟨collect_eq_preorder n, collect_length_eq_rectCountSum n,
    collect_empty_tree rootNode rfl rfl⟩

/-- C8: every node created by `build_shadow_dom` ends up in the returned
tree: the tree holds exactly one node per `start` probe, one per atomic
probe, plus the root — nodes whose matching `end` never arrives are not
dropped (they are flattened into the tree with the children they gathered
while open).  Moreover every frame still on the stack when the input is
exhausted — root and all still-open nodes — carries zero rectangles, since
`close` was never invoked on it. -/
theorem c8_created_nodes_retained (ps : List Probe) :
    treeSize (buildShadowDom ps) = 1 + startCount ps + atomicCount ps ∧
    (∀ n ∈ (runBuild ps).stack, n.rects = []) := by
  have hne : initState.stack ≠ [] := by simp [initState]
  constructor
  · rcases hstk : (runBuild ps).stack with _ | ⟨top, rest⟩
    · exact absurd hstk (by rw [runBuild]; exact foldl_stack_ne_nil ps initState hne)
    · have hsum : stackSizeSum (runBuild ps).stack =
          stackSizeSum initState.stack + startCount ps + atomicCount ps := by
        rw [runBuild]
        exact foldl_stackSizeSum ps initState hne
      rw [hstk] at hsum
      have hinit : stackSizeSum initState.stack = 1 := rfl
      rw [hinit] at hsum
      rw [buildShadowDom]
      rw [hstk]
      rw [treeSize_setPages, treeSize_flattenStack]
      simp only [stackSizeSum, treeSizeList_cons] at hsum ⊢
      omega
  · rw [runBuild]
    refine foldl_stack_rects_nil ps initState ?_
    intro n hn
    rw [initState] at hn
    simp at hn
    rw [hn, rootNode]
    rfl

/-- Witness for C8: a sequence with one `start` whose `end` never arrives
and one atomic probe; the open node sits on the stack with no rectangles
and the built tree holds all three nodes. -/
theorem c8_created_nodes_retained_witness :
    (treeSize (buildShadowDom [mkStartProbe "open-start" 1 0 50,
        mkAtomicProbe "dot" 1 3 4]) =
      1 + startCount [mkStartProbe "open-start" 1 0 50, mkAtomicProbe "dot" 1 3 4] +
        atomicCount [mkStartProbe "open-start" 1 0 50, mkAtomicProbe "dot" 1 3 4]) ∧
    ((startNode (mkStartProbe "open-start" 1 0 50)).addChild
        (atomicNode (mkAtomicProbe "dot" 1 3 4))).rects = [] := by
  refine ⟨(c8_created_nodes_retained _).1, ?_⟩
  have hstack : (runBuild [mkStartProbe "open-start" 1 0 50,
      mkAtomicProbe "dot" 1 3 4]).stack =
      (startNode (mkStartProbe "open-start" 1 0 50)).addChild
        (atomicNode (mkAtomicProbe "dot" 1 3 4)) :: [rootNode] := rfl
  exact (c8_created_nodes_retained _).2 _
    (by rw [hstack]; exact List.mem_cons_self _ _)

/-- C10: the pairing marker is read exclusively from the payload's `edge`
field.  Any probe whose payload `edge` is neither exactly the string
`"start"` nor exactly the string `"end"` — absent, another string such as
`"middle"` or `"END"`, or a non-string value — takes the atomic branch
(an `isAtomic` node with a single marker rectangle appended to the current
stack top, never pushed), no error is raised (`step` is total), and a
pairing field stored at the top level of the probe record is ignored:
`step` returns identical states for any two values of that field. -/
theorem c10_edge_only_from_payload (s : BState) (p : Probe) (top : ShadowNode)
    (rest : List ShadowNode) (hs : s.stack = top :: rest)
    (h1 : probeEdge p ≠ some (.str "start"))
    (h2 : probeEdge p ≠ some (.str "end")) :
    (step s p).stack = top.addChild (atomicNode p) :: rest ∧
    (atomicNode p).isAtomic = true ∧
    (atomicNode p).rects =
      [⟨(locOf p).page.getD 1, (locOf p).x.getD 0, (locOf p).y.getD 0, 10, 10⟩] ∧
    (∀ e : Option PVal,
      step s ⟨p.id, p.payload, p.location, p.seq, p.kind, e⟩ = step s p) := by
  refine ⟨step_stack_atomic s p top rest hs
      (by rw [isStart]; exact decide_eq_false h1)
      (by rw [isEnd]; exact decide_eq_false h2),
    atomicNode_isAtomic p, atomicNode_rects p, ?_⟩
  intro e
  cases p
  rfl

/-- Witness for C10 at the unrecognized markers `"middle"`, `"END"` and a
non-string value. -/
theorem c10_edge_only_from_payload_witness :
    ((step initState (mkEdgeProbe "u1" (some (.str "middle")) none)).stack =
      rootNode.addChild (atomicNode (mkEdgeProbe "u1" (some (.str "middle")) none)) :: []) ∧
    ((step initState (mkEdgeProbe "u2" (some (.str "END")) none)).stack =
      rootNode.addChild (atomicNode (mkEdgeProbe "u2" (some (.str "END")) none)) :: []) ∧
    ((step initState (mkEdgeProbe "u3" (some .nonstr) none)).stack =
      rootNode.addChild (atomicNode (mkEdgeProbe "u3" (some .nonstr) none)) :: []) ∧
    (step initState (mkEdgeProbe "u1" (some (.str "middle")) (some (.str "end"))) =
      step initState (mkEdgeProbe "u1" (some (.str "middle")) none)) :=
  ⟨(c10_edge_only_from_payload initState _ rootNode [] rfl (by decide) (by decide)).1,
   (c10_edge_only_from_payload initState _ rootNode [] rfl (by decide) (by decide)).1,
   (c10_edge_only_from_payload initState _ rootNode [] rfl (by decide) (by decide)).1,
   (c10_edge_only_from_payload initState
      (mkEdgeProbe "u1" (some (.str "middle")) none) rootNode [] rfl
      (by decide) (by decide)).2.2.2 (some (.str "end"))⟩

/-- C9: on the empty probe sequence the builder returns a root of kind
`DOCUMENT`, id `ROOT`, zero children, and page count 0 recorded in its
payload; both renderers (total functions — they cannot fail) produce
well-formed but empty-bodied output: the tree printer emits only the
header line, and the HTML exporter renders no page panel (no page key is
grouped), yielding exactly the fixed document skeleton around an empty
body. -/
theorem c9_empty_input_minimal_outputs :
    (buildShadowDom []).kind = "DOCUMENT" ∧
    (buildShadowDom []).id = "ROOT" ∧
    (buildShadowDom []).children = [] ∧
    (buildShadowDom []).payload.pages = some 0 ∧
    printTreeString (buildShadowDom []) = "[DOCUMENT-ROOT] (Pages: 0)\n" ∧
    rectPageKeys (collectAllRects (buildShadowDom [])) = [] ∧
    exportHtml (buildShadowDom []) =
      htmlHead ++ "0" ++ htmlAcross ++ "0" ++ htmlLegendEnd ++ htmlFooter := by
  refine ⟨by decide, by decide, rfl, by decide, by decide, by decide, ?_⟩
  rw [exportHtml]
  have h1 : toString (collectAllRects (buildShadowDom [])).length = "0" := by decide
  have h2 : toString ((buildShadowDom []).payload.pages.getD 1) = "0" := by decide
  have h3 : String.join ((rectPageKeys (collectAllRects (buildShadowDom []))).map
      (pageHtml (collectAllRects (buildShadowDom [])))) = "" := by decide
  rw [h1, h2, h3]
  simp
